import Mathlib

/-!
Shallow embedding of the music request/delivery pipeline of
`src/utils/trans-strategy.js` (the `songRequest` plugin class), together with
theorems settling the frozen claims about it.

Conventions used throughout:
* JavaScript objects become structures; a field that may be `undefined`/`null`
  becomes an `Option`.
* A promise that may reject (an uncaught `throw` / rejected `await`) becomes an
  `Except`: `Except.error` marks an exception propagating out of the function.
* Remote HTTP responses are inputs of the embedded functions: the embedding
  quantifies over what the collaborator endpoints may return.
-/

/-- One entry of the song lists built by `pickSong` / `getCloudSong`:
`{id, songName, singerName, duration, cover?}`.  `duration` is the formatted
length, or the sentinel string for a personal-cloud track; `cover` is absent
until the detail lookup assigns it. -/
structure Song where
  id : Nat
  songName : String
  singerName : String
  duration : String
  cover : Option String := none
deriving DecidableEq, Repr

/-- One entry of the Redis-persisted session store (`REDIS_YUNZAI_SONGINFO`):
`{group_id, data}`, the most recent merged search result of one group chat. -/
structure MusicDate where
  group_id : Nat
  data : List Song
deriving DecidableEq, Repr

/-- One entry of the `/song/detail` response used by `pickSong` to correct
titles, artists and covers. -/
structure SongDetail where
  id : Nat
  name : String
  arName : String
  picUrl : String
deriving DecidableEq, Repr

/-- User-visible outcome of the search branch of `pickSong`: either the
rendered song-list image, or the literal not-found text reply. -/
inductive Reply where
  | listImage (songs : List Song)
  | notFound
deriving DecidableEq, Repr

/-- Boolean test that `needle` occurs as a contiguous run inside `hay`,
the embedding of JavaScript `String.prototype.includes`. -/
def occursIn (needle : List Char) : List Char → Bool
  | [] => needle.isEmpty
  | c :: rest => needle.isPrefixOf (c :: rest) || occursIn needle rest

/-- JavaScript `hay.includes(needle)`. -/
def strIncludes (hay needle : String) : Bool :=
  occursIn needle.data hay.data

/-- The cloud-list filter of `pickSong` (line 395):
`songName.includes(kw) || singerName.includes(kw) || songName == kw || singerName == kw`. -/
def songMatches (kw : String) (s : Song) : Bool :=
  strIncludes s.songName kw || strIncludes s.singerName kw ||
    s.songName == kw || s.singerName == kw

/-- The object literal pushed into `musicDate.data` (lines 402-407): only the
four fields `id`, `songName`, `singerName`, `duration` are copied, so any
`cover` on the cloud-list entry is dropped. -/
def stripToEntry (s : Song) : Song :=
  { id := s.id, songName := s.songName, singerName := s.singerName,
    duration := s.duration, cover := none }

/-- One step of the title/artist correction loop (lines 444-448): `findIndex`
by id and update that first matching entry with the detail lookup's
authoritative `name` / `ar[0].name`. -/
def correctOne (d : SongDetail) : List Song → List Song
  | [] => []
  | s :: rest =>
    if s.id == d.id then
      { s with songName := d.name, singerName := d.arName } :: rest
    else
      s :: correctOne d rest

/-- The `imgList` map built in lines 437-443: keyed by song id, the default
placeholder image id is replaced by the sentinel string; a later detail entry
with the same id overwrites an earlier one. -/
def imgListLookup (details : List SongDetail) (sid : Nat) : Option String :=
  details.foldl
    (fun acc d =>
      if d.id == sid then
        some (if strIncludes d.picUrl "109951169484091680.jpg" then "def" else d.picUrl)
      else acc)
    none

/-- The cover-assignment loop of lines 450-455. -/
def assignCovers (details : List SongDetail) (l : List Song) : List Song :=
  l.map fun s =>
    match imgListLookup details s.id with
    | some c => { s with cover := some c }
    | none => s

/-- Search branch of `pickSong` (lines 388-469).  Inputs stand for the
environment: `cloud` is the cloud song list, `searchResp` is the
`res.data.result.songs` field of the `/search` response (`none` when the field
is absent or null, in which case the remote loop throws and is caught at line
426), `details` is the `/song/detail` response, `store` is the persisted
session store.  Per JavaScript truthiness, a present-but-empty `songs` array
is truthy, so the condition at line 416 is `searchResp.isSome || data` is
nonempty. Returns the updated store and the user-visible reply. -/
def pickSongSearch (maxList gid : Nat) (cloud : List Song) (kw : String)
    (searchResp : Option (List Song)) (details : List SongDetail)
    (store : List MusicDate) : List MusicDate × Reply :=
  let saveId := store.findIdx? (fun item => item.group_id == gid)
  let matchedSongs := cloud.filter (songMatches kw)
  let songListCount := min matchedSongs.length maxList
  let base := (matchedSongs.take songListCount).map stripToEntry
  if searchResp.isSome || !base.isEmpty then
    let remote := searchResp.getD []
    let collected := base ++ remote
    let corrected := details.foldl (fun acc d => correctOne d acc) collected
    let finalData := assignCovers details corrected
    let entry : MusicDate := { group_id := gid, data := finalData }
    ( match saveId with
      | none => store ++ [entry]
      | some i => store.set i entry,
      Reply.listImage finalData )
  else
    (store, Reply.notFound)

/-- Exceptions that can propagate out of the listen branch of `pickSong`
(lines 470-488); none of them is caught, so each is an uncaught promise
rejection and no user-visible reply is produced. -/
inductive ListenError where
  | nullStore
  | noSessionForGroup
  | indexOutOfRange
deriving DecidableEq, Repr

/-- Listen branch of `pickSong` for a `#听N` command (lines 470-488).
`store` is the raw value of the Redis key (`none` when the key is absent, in
which case `songInfo.findIndex` dereferences null); the guard at line 470
compares loosely against a fresh array and is therefore always true.
`songInfo[saveId].data` with `saveId = -1` and `selectedSong.id` with
`selectedSong` undefined both throw.  On success the branch resolves the
selected track's id and hands it to `neteasePlay`. -/
def pickSongListen (store : Option (List MusicDate)) (gid n : Nat) :
    Except ListenError Nat :=
  match store with
  | none => Except.error ListenError.nullStore
  | some songInfo =>
    match songInfo.find? (fun item => item.group_id == gid) with
    | none => Except.error ListenError.noSessionForGroup
    | some md =>
      match md.data.get? (n - 1) with
      | none => Except.error ListenError.indexOutOfRange
      | some s => Except.ok s.id

/-- Value stored under the Redis key `REDIS_YUNZAI_ISOVERSEA`: `{os: boolean}`. -/
structure OverseaFlag where
  os : Bool
deriving DecidableEq, Repr

/-- The region selector `isOverseasServer` (lines 803-813), as a function of
the persisted cache value (`none` when the key does not exist yet).  Returns
the reported boolean together with the cache value after the call: on first
use it stores `{os: false}` and returns `true`; afterwards it returns the
stored `os` field and leaves the cache untouched. -/
def isOverseasServer (cache : Option OverseaFlag) : Bool × Option OverseaFlag :=
  match cache with
  | none => (true, some { os := false })
  | some flag => (flag.os, some flag)

/-- The `profile` object inside the `/login/status` response; only the
`userId` field is consumed by the source. -/
structure LoginProfile where
  userId : Nat
deriving DecidableEq, Repr

/-- The `res.data.data` object of the `/login/status` response; `profile` may
be null/absent. -/
structure LoginStatusData where
  profile : Option LoginProfile
deriving DecidableEq, Repr

/-- The `/login/status` response body: `data` is `none` when `res.data.data`
is undefined (malformed payload), in which case accessing `.profile` throws. -/
structure LoginResp where
  data : Option LoginStatusData
deriving DecidableEq, Repr

/-- Which of the two independent credential slots a probe uses (line 830). -/
inductive CookieType where
  | song
  | cloud
deriving DecidableEq, Repr

/-- Exceptions that can propagate out of `checkCooike`: a rejected transport
call, a payload without a `data` object, or — for the `song` cookie only —
reading `.userId` off an absent profile at line 840. -/
inductive CkError where
  | transport
  | malformedData
  | profileUserId
deriving DecidableEq, Repr

/-- The credential probe `checkCooike` (lines 829-851) as a function of the
transport outcome.  The result pairs the returned status with the account id
persisted into configuration (line 840, `song` cookie only).  There is no
catch anywhere in the function, so a transport rejection or a TypeError while
reading the payload propagates to the caller as `Except.error`. -/
def checkCooike (resp : Except Unit LoginResp) (cookieType : CookieType) :
    Except CkError (Bool × Option Nat) :=
  match resp with
  | Except.error _ => Except.error CkError.transport
  | Except.ok r =>
    match r.data with
    | none => Except.error CkError.malformedData
    | some d =>
      match cookieType, d.profile with
      | CookieType.song, none => Except.error CkError.profileUserId
      | CookieType.song, some p => Except.ok (true, some p.userId)
      | CookieType.cloud, none => Except.ok (false, none)
      | CookieType.cloud, some _ => Except.ok (true, none)

/-- One polling observation of the watched path by `waitForFile`:
the file is absent, `fs.statSync` throws, or the file has the given size. -/
inductive FileObs where
  | absent
  | statError
  | size (n : Nat)
deriving DecidableEq, Repr

/-- The polling loop of `waitForFile` (lines 1045-1074).  `obs i` is what the
i-th iteration observes at the path.  Arguments mirror the mutable locals:
remaining iterations (`maxAttempts - attempts`), `attempts`, `lastSize`
(initially `-1`), `stableChecks`.  Returns the boolean result together with
the value of `attempts` when the loop exits. -/
def waitForFileAux (obs : Nat → FileObs) : Nat → Nat → Int → Nat → Bool × Nat
  | 0, a, _, _ => (false, a)
  | fuel + 1, a, lastSize, sc =>
    match obs a with
    | FileObs.size n =>
      if 2 ≤ (if 0 < n ∧ (n : Int) = lastSize then sc + 1 else 0) then (true, a)
      else
        waitForFileAux obs fuel (a + 1) (n : Int)
          (if 0 < n ∧ (n : Int) = lastSize then sc + 1 else 0)
    | FileObs.absent => waitForFileAux obs fuel (a + 1) (-1) 0
    | FileObs.statError => waitForFileAux obs fuel (a + 1) (-1) 0

/-- The file-readiness watcher `waitForFile` (lines 1036-1078): the loop runs
while `attempts < maxAttempts` with `maxAttempts = timeoutSeconds` (line
1038), sleeping 500 ms between iterations. -/
def waitForFile (obs : Nat → FileObs) (timeoutSeconds : Nat) : Bool × Nat :=
  waitForFileAux obs timeoutSeconds 0 (-1) 0

/-- Observable actions of the post-download tail of `neteasePlay`. -/
inductive DeliveryAction where
  | uploadGroupFile (path : String)
  | sendVoice (path : String)
  | removeFile (path : String)
deriving DecidableEq, Repr

/-- Delivery tail of `neteasePlay` (lines 949-983): after the music-card
attempt (`cardSentSuccessfully`) and the download (`downloadResult`, `none`
when `downloadAudio` rejected), the fallback file/voice transfer and the
file-deletion `finally` run only when the card was not sent; when the card
was delivered the downloaded file is left in place (the later `#上传` command
relies on it). -/
def neteasePlayDelivery (cardSentSuccessfully : Bool) (downloadResult : Option String)
    (musicExt : String) (isSendVocal : Bool) : List DeliveryAction :=
  match downloadResult with
  | none => []
  | some path =>
    if cardSentSuccessfully then []
    else
      [DeliveryAction.uploadGroupFile path] ++
        (if musicExt != "mp4" && isSendVocal then [DeliveryAction.sendVoice path] else []) ++
        [DeliveryAction.removeFile path]

/-- Modelled from the spec: `retryAxiosReq` (in `utils/common.js`, which is
not part of the embedded source) is the shared retry-with-backoff primitive
that wraps the upload; a run that ultimately succeeds resolves with the
upload response, and a run that exhausts its retries fails, surfacing the
final error to the awaiting caller.  It is embedded as the run's ultimate
outcome. -/
def retryAxiosReq (outcome : Except Unit Nat) : Except Unit Nat :=
  outcome

/-- Observable outcome of the tail of `uploadCloud` (lines 631-675). -/
structure UploadCloudResult where
  fileRemoved : Bool
  raised : Bool
deriving DecidableEq, Repr

/-- Tail of `uploadCloud` from the `waitForFile` gate onward (lines 631-675):
if the file never stabilises the function returns early; otherwise the
retried upload runs and, only after `await retryAxiosReq(...)` resolves, is
`checkAndRemoveFile(path)` executed — there is no try/finally, so a rejection
of the retry wrapper propagates out of `uploadCloud` before the deletion
line. -/
def uploadCloudTail (fileReady : Bool) (retryOutcome : Except Unit Nat) :
    UploadCloudResult :=
  if !fileReady then { fileRemoved := false, raised := false }
  else
    match retryAxiosReq retryOutcome with
    | Except.ok _ => { fileRemoved := true, raised := false }
    | Except.error _ => { fileRemoved := false, raised := true }

/-- Process-level operations that touch the module-level mutable variable
`FileSuffix` (line 295): a delivery (`neteasePlay`) assigns the resolved
track's extension to it (line 947), and an upload command (`upLoad` line 600,
`uploadCloud` line 630) reads it to build the awaited path. -/
inductive MusicOp where
  | neteasePlay (resolvedExt : String)
  | upLoadCmd (desc title : String)
deriving DecidableEq, Repr

/-- Effect of one operation on the `FileSuffix` variable. -/
def stepSuffix (suffix : String) : MusicOp → String
  | MusicOp.neteasePlay ext => ext
  | MusicOp.upLoadCmd _ _ => suffix

/-- Value of `FileSuffix` after a process-lifetime sequence of operations,
starting from the initialiser `'flac'` (line 295). -/
def runSuffix (ops : List MusicOp) : String :=
  ops.foldl stepSuffix "flac"

/-- Whether an operation is a delivery. -/
def isPlay : MusicOp → Bool
  | MusicOp.neteasePlay _ => true
  | MusicOp.upLoadCmd _ _ => false

/-- Extension of the most recent delivery in the sequence, `'flac'` when no
delivery has happened yet — the specification-level description of what an
upload command's awaited suffix should be compared against. -/
def lastResolvedExt : List MusicOp → String
  | [] => "flac"
  | MusicOp.neteasePlay ext :: rest =>
    if rest.any isPlay then lastResolvedExt rest else ext
  | MusicOp.upLoadCmd _ _ :: rest => lastResolvedExt rest

/-- The path the upload commands wait for (lines 600 and 630):
`getCurDownloadPath(e) + '/' + desc + '-' + title + '.' + FileSuffix`. -/
def upLoadAwaitedPath (basePath desc title suffix : String) : String :=
  basePath ++ "/" ++ desc ++ "-" ++ title ++ "." ++ suffix

/-- Concrete observation trace for the watcher: size 5 twice, then size 6. -/
def obsTwoStable : Nat → FileObs :=
  fun i => if i ≤ 1 then FileObs.size 5 else FileObs.size 6

/-- Concrete observation trace for the watcher: constant size 5. -/
def obsConstFive : Nat → FileObs :=
  fun _ => FileObs.size 5

/-- Concrete cloud library with one track matching the keyword used in the
search-merge witness. -/
def cloudSample : List Song :=
  [{ id := 101, songName := "a song", singerName := "b singer",
     duration := "云盘", cover := none }]

/-- Concrete remote catalog result with one track, for the search-merge
witness. -/
def remoteSample : List Song :=
  [{ id := 202, songName := "c song", singerName := "d singer",
     duration := "3:25", cover := none }]

theorem correctOne_map_id (d : SongDetail) (l : List Song) :
    (correctOne d l).map Song.id = l.map Song.id := by
  induction l with
  | nil => rfl
  | cons s rest ih =>
    by_cases h : s.id == d.id
    · simp [correctOne, h]
    · simp [correctOne, h, ih]

theorem foldl_correctOne_map_id (details : List SongDetail) (l : List Song) :
    (details.foldl (fun acc d => correctOne d acc) l).map Song.id = l.map Song.id := by
  induction details generalizing l with
  | nil => rfl
  | cons d rest ih =>
    simp only [List.foldl_cons]
    rw [ih, correctOne_map_id]

theorem assignCovers_map_id (details : List SongDetail) (l : List Song) :
    (assignCovers details l).map Song.id = l.map Song.id := by
  induction l with
  | nil => rfl
  | cons s rest ih =>
    simp only [assignCovers, List.map_cons] at ih ⊢
    rw [ih]
    cases imgListLookup details s.id <;> rfl

theorem map_stripToEntry_map_id (l : List Song) :
    (l.map stripToEntry).map Song.id = l.map Song.id := by
  induction l with
  | nil => rfl
  | cons s rest ih => simp only [List.map_cons, ih, stripToEntry]

/-- The claim of C1 fails on the code: with no persisted flag, the first call
to `isOverseasServer` reports overseas (`true`) but persists `os = false`, so
the second call, reading the persisted flag, reports `false`, not overseas. -/
theorem c1_counterexample :
    (isOverseasServer none).1 = true ∧
    (isOverseasServer (isOverseasServer none).2).1 = false := by
  decide

/-- C1, amended: on first invocation with no persisted RegionFlag,
`isOverseasServer` treats the deployment as overseas (returns `true`) but
persists the opposite decision `os = false`; every subsequent call reads the
persisted flag, so the deployment is reported as domestic (`false`) until the
flag is explicitly changed. -/
theorem c1_amended :
    isOverseasServer none = (true, some { os := false }) ∧
    ∀ flag : OverseaFlag, isOverseasServer (some flag) = (flag.os, some flag) := by
  exact ⟨rfl, fun _ => rfl⟩

/-- The claim of C2 fails on the code: when the catalog search responds with a
present but empty `songs` array (no candidates) and the personal library
matches nothing, the truthy-array test at line 416 takes the found path, so a
session with an empty track list is created for the conversation and the
reply is the rendered (empty) list, not the not-found message. -/
theorem c2_counterexample :
    (pickSongSearch 10 1 [] "x" (some []) [] []).2 ≠ Reply.notFound ∧
    (pickSongSearch 10 1 [] "x" (some []) [] []).1 ≠ [] := by
  decide

/-- C2, amended: when the personal-library match is empty and the catalog
response carries no `songs` field at all (absent/null), the user receives the
single not-found reply and the session store is unchanged; when the catalog
instead returns a present-but-empty `songs` array, the session is
created/overwritten with an empty track list and an empty rendered list is
replied. -/
theorem c2_amended (maxList gid : Nat) (cloud : List Song) (kw : String)
    (details : List SongDetail) (store : List MusicDate)
    (hmatch : cloud.filter (songMatches kw) = []) :
    pickSongSearch maxList gid cloud kw none details store = (store, Reply.notFound) := by
  simp [pickSongSearch, hmatch]

/-- Witness for `c2_amended` at a concrete input. -/
theorem c2_witness :
    pickSongSearch 10 1 [] "a" none [] [] = ([], Reply.notFound) :=
  c2_amended 10 1 [] "a" [] [] rfl

/-- The claim of C5 fails on the code: in a delivery whose download succeeded
and whose structured music card was sent successfully, no action at all is
performed on the downloaded file — in particular it is not deleted. -/
theorem c5_counterexample :
    neteasePlayDelivery true (some "p") "flac" true = [] ∧
    DeliveryAction.removeFile "p" ∉ neteasePlayDelivery true (some "p") "flac" true := by
  decide

/-- C5, amended: in a delivery whose download step succeeds, the local file
is deleted only when delivery fell back to raw file/voice transfer (card not
sent); when the structured music card was sent successfully the downloaded
file is kept on disk, and when the download failed no delivery action runs. -/
theorem c5_amended (path ext : String) (vocal cardSent : Bool) :
    DeliveryAction.removeFile path ∈ neteasePlayDelivery false (some path) ext vocal ∧
    DeliveryAction.removeFile path ∉ neteasePlayDelivery true (some path) ext vocal ∧
    neteasePlayDelivery cardSent none ext vocal = [] := by
  refine ⟨?_, ?_, ?_⟩
  · simp [neteasePlayDelivery]
  · simp [neteasePlayDelivery]
  · rfl

/-- Witness for `c5_amended` at a concrete input. -/
theorem c5_witness :
    DeliveryAction.removeFile "p" ∈ neteasePlayDelivery false (some "p") "flac" true :=
  (c5_amended "p" "flac" true true).1

/-- The claim of C6 fails on the code: a probe whose transport call fails does
not return `false` — the rejection propagates out of `checkCooike` (there is
no catch), i.e. it raises. -/
theorem c6_counterexample :
    checkCooike (Except.error ()) CookieType.song = Except.error CkError.transport := by
  rfl

/-- C6, amended: `checkCooike` returns `true` only when the login-status
response carries a profile payload; it returns `false` (without raising)
exactly when the response is well-formed, the profile is absent, and the probe
uses the cloud credential.  A transport failure raises, a payload without a
`data` object raises, and with the song credential an absent profile also
raises (while persisting the account id is attempted) — none of these return
`false`. -/
theorem c6_amended (resp : Except Unit LoginResp) (ct : CookieType) :
    (∀ uid, checkCooike resp ct = Except.ok (true, uid) →
      ∃ d p, resp = Except.ok { data := some d } ∧ d.profile = some p) ∧
    (checkCooike resp ct = Except.ok (false, none) ↔
      (∃ d, resp = Except.ok { data := some d } ∧ d.profile = none) ∧
        ct = CookieType.cloud) ∧
    (∀ u, resp = Except.error u → checkCooike resp ct = Except.error CkError.transport) ∧
    (resp = Except.ok { data := none } →
      checkCooike resp ct = Except.error CkError.malformedData) ∧
    (∀ d, resp = Except.ok { data := some d } → d.profile = none →
      ct = CookieType.song →
      checkCooike resp ct = Except.error CkError.profileUserId) := by
  rcases resp with u | r
  · refine ⟨?_, ?_, ?_, ?_, ?_⟩
    · intro uid h; exact absurd h (by simp [checkCooike])
    · constructor
      · intro h; exact absurd h (by simp [checkCooike])
      · rintro ⟨⟨d, hd, _⟩, _⟩; exact absurd hd (by simp)
    · intro v _; rfl
    · intro h; exact absurd h (by simp)
    · intro d h; exact absurd h (by simp)
  · rcases r with ⟨_ | d⟩
    · refine ⟨?_, ?_, ?_, ?_, ?_⟩
      · intro uid h; exact absurd h (by simp [checkCooike])
      · constructor
        · intro h; exact absurd h (by simp [checkCooike])
        · rintro ⟨⟨d, hd, _⟩, _⟩; simp at hd
      · intro u h; exact absurd h (by simp)
      · intro _; rfl
      · intro d h; simp at h
    · rcases d with ⟨_ | p⟩ <;> rcases ct with _ | _
      · refine ⟨?_, ?_, ?_, ?_, ?_⟩
        · intro uid h; exact absurd h (by simp [checkCooike])
        · constructor
          · intro h; exact absurd h (by simp [checkCooike])
          · rintro ⟨⟨d, hd, hp⟩, hct⟩; cases hct
        · intro u h; exact absurd h (by simp)
        · intro h; simp at h
        · intro d h hp _
          simp only [Except.ok.injEq, LoginResp.mk.injEq, Option.some.injEq] at h
          subst h; rfl
      · refine ⟨?_, ?_, ?_, ?_, ?_⟩
        · intro uid h; exact absurd h (by simp [checkCooike])
        · constructor
          · intro _; exact ⟨⟨{ profile := none }, rfl, rfl⟩, rfl⟩
          · intro _; rfl
        · intro u h; exact absurd h (by simp)
        · intro h; simp at h
        · intro d h hp hct; cases hct
      · refine ⟨?_, ?_, ?_, ?_, ?_⟩
        · intro uid _
          exact ⟨{ profile := some p }, p, rfl, rfl⟩
        · constructor
          · intro h; exact absurd h (by simp [checkCooike])
          · rintro ⟨⟨d, hd, hp⟩, hct⟩; cases hct
        · intro u h; exact absurd h (by simp)
        · intro h; simp at h
        · intro d h hp _
          simp only [Except.ok.injEq, LoginResp.mk.injEq, Option.some.injEq] at h
          subst h; simp at hp
      · refine ⟨?_, ?_, ?_, ?_, ?_⟩
        · intro uid _
          exact ⟨{ profile := some p }, p, rfl, rfl⟩
        · constructor
          · intro h; exact absurd h (by simp [checkCooike])
          · rintro ⟨⟨d, hd, hp⟩, _⟩
            simp only [Except.ok.injEq, LoginResp.mk.injEq, Option.some.injEq] at hd
            subst hd; simp at hp
        · intro u h; exact absurd h (by simp)
        · intro h; simp at h
        · intro d h hp hct; cases hct

/-- Witness for `c6_amended` at a concrete input: a well-formed response with
an absent profile probed with the cloud credential yields `false`. -/
theorem c6_witness :
    checkCooike (Except.ok { data := some { profile := none } }) CookieType.cloud =
      Except.ok (false, none) :=
  (c6_amended (Except.ok { data := some { profile := none } }) CookieType.cloud).2.1.mpr
    ⟨⟨{ profile := none }, rfl, rfl⟩, rfl⟩

/-- The claim of C7 fails on the code: when the retry wrapper exhausts its
retries and fails, the rejection propagates out of `uploadCloud` before the
`checkAndRemoveFile(path)` line, so the local temp file is not deleted. -/
theorem c7_counterexample :
    uploadCloudTail true (Except.error ()) = { fileRemoved := false, raised := true } := by
  rfl

/-- C7, amended: in the cloud-upload coordination, the local temp file is
deleted when the retried upload ultimately succeeds; when the retry wrapper
exhausts its retries and fails, `uploadCloud` raises (the rejection
propagates) and the temp file is left on disk. -/
theorem c7_amended (o : Except Unit Nat) :
    (∀ v, retryAxiosReq o = Except.ok v →
      uploadCloudTail true o = { fileRemoved := true, raised := false }) ∧
    (∀ u, retryAxiosReq o = Except.error u →
      uploadCloudTail true o = { fileRemoved := false, raised := true }) := by
  constructor
  · intro v h; simp [uploadCloudTail, h]
  · intro u h; simp [uploadCloudTail, h]

/-- Witness for `c7_amended` at a concrete input. -/
theorem c7_witness :
    uploadCloudTail true (Except.ok 7) = { fileRemoved := true, raised := false } :=
  (c7_amended (Except.ok 7)).1 7 rfl

theorem foldl_stepSuffix (ops : List MusicOp) :
    ∀ init : String, ops.foldl stepSuffix init =
      if ops.any isPlay then lastResolvedExt ops else init := by
  induction ops with
  | nil => intro init; rfl
  | cons op rest ih =>
    intro init
    cases op with
    | neteasePlay ext =>
      simp only [List.foldl_cons, List.any_cons, stepSuffix, isPlay,
        lastResolvedExt, Bool.true_or, if_true]
      exact ih ext
    | upLoadCmd d t =>
      simp only [List.foldl_cons, List.any_cons, stepSuffix, isPlay,
        lastResolvedExt, Bool.false_or]
      exact ih init

theorem lastResolvedExt_no_play (ops : List MusicOp) (h : ops.any isPlay = false) :
    lastResolvedExt ops = "flac" := by
  induction ops with
  | nil => rfl
  | cons op rest ih =>
    cases op with
    | neteasePlay ext => simp [isPlay] at h
    | upLoadCmd d t =>
      simp only [List.any_cons, isPlay, Bool.false_or] at h
      simpa [lastResolvedExt] using ih h

theorem runSuffix_eq_lastResolvedExt (ops : List MusicOp) :
    runSuffix ops = lastResolvedExt ops := by
  unfold runSuffix
  rw [foldl_stepSuffix]
  by_cases h : ops.any isPlay = true
  · simp [h]
  · rw [Bool.not_eq_true] at h
    simp [h, lastResolvedExt_no_play ops h]

/-- C9, confirmed: the suffix of the path an upload command (`upLoad`,
`uploadCloud`) waits for is the value of the module-level mutable variable
`FileSuffix` after whatever sequence of operations the process has run, and
that value is exactly the extension of the most recent delivery
(`neteasePlay`) anywhere in the process — `'flac'` when no delivery has
happened yet — regardless of `desc`/`title` of the message being uploaded. -/
theorem c9_theorem (ops : List MusicOp) (base desc title : String) :
    upLoadAwaitedPath base desc title (runSuffix ops) =
      base ++ "/" ++ desc ++ "-" ++ title ++ "." ++ lastResolvedExt ops ∧
    runSuffix [] = "flac" := by
  refine ⟨?_, rfl⟩
  unfold upLoadAwaitedPath
  rw [runSuffix_eq_lastResolvedExt]

/-- C10, confirmed: resolving `#听N` when no session entry exists for the
requesting conversation (either the whole Redis key is absent, or the store
has no entry for the group), or when N exceeds the stored track list's
length, makes the listen branch of `pickSong` throw (an uncaught rejection)
instead of producing any reply. -/
theorem c10_theorem (store : List MusicDate) (gid n : Nat)
    (h : store.find? (fun item => item.group_id == gid) = none ∨
      ∃ md, store.find? (fun item => item.group_id == gid) = some md ∧
        md.data.length < n) :
    (∃ err, pickSongListen (some store) gid n = Except.error err) ∧
    pickSongListen none gid n = Except.error ListenError.nullStore := by
  refine ⟨?_, rfl⟩
  rcases h with h | ⟨md, hmd, hlen⟩
  · exact ⟨ListenError.noSessionForGroup, by simp [pickSongListen, h]⟩
  · refine ⟨ListenError.indexOutOfRange, ?_⟩
    have hget : md.data[n - 1]? = none := List.getElem?_eq_none (by omega)
    simp [pickSongListen, hmd, hget]

/-- Witness for `c10_theorem` at a concrete input: empty store, `#听1`. -/
theorem c10_witness :
    (∃ err, pickSongListen (some []) 1 1 = Except.error err) ∧
    pickSongListen none 1 1 = Except.error ListenError.nullStore :=
  c10_theorem [] 1 1 (Or.inl rfl)

theorem waitForFileAux_absent (fuel : Nat) :
    ∀ (a : Nat) (last : Int) (sc : Nat),
      waitForFileAux (fun _ => FileObs.absent) fuel a last sc = (false, a + fuel) := by
  induction fuel with
  | zero => intro a last sc; rfl
  | succ fuel ih =>
    intro a last sc
    rw [waitForFileAux]
    simp only [ih]
    have harith : a + 1 + fuel = a + (fuel + 1) := by omega
    rw [harith]

/-- C4: for a path at which no file ever appears, `waitForFile` returns false
after exactly `timeoutSeconds` polling attempts — the code sets
`maxAttempts = timeoutSeconds` (line 1038) while polling every 500 ms, so at
the default `timeoutSeconds = 120` it gives up after 120 attempts (about 60
seconds of sleeps), not after the `timeoutSeconds / 0.5 = 240` attempts that
its own doc comment and timeout log message (a 120-second timeout) imply. -/
theorem c4_theorem :
    (∀ t : Nat, waitForFile (fun _ => FileObs.absent) t = (false, t)) ∧
    waitForFile (fun _ => FileObs.absent) 120 = (false, 120) := by
  have h : ∀ t : Nat, waitForFile (fun _ => FileObs.absent) t = (false, t) := by
    intro t
    unfold waitForFile
    rw [waitForFileAux_absent]
    simp
  exact ⟨h, h 120⟩

theorem waitForFileAux_true_sound (obs : Nat → FileObs) :
    ∀ (fuel a : Nat) (last : Int) (sc : Nat),
      (0 < last → ∃ m : Nat, last = (m : Int) ∧ 1 ≤ a ∧ obs (a - 1) = FileObs.size m) →
      (1 ≤ sc → ∃ m : Nat, 0 < m ∧ last = (m : Int) ∧ 2 ≤ a ∧
        obs (a - 1) = FileObs.size m ∧ obs (a - 2) = FileObs.size m) →
      (waitForFileAux obs fuel a last sc).1 = true →
      ∃ i n, i + 2 < a + fuel ∧ 0 < n ∧ obs i = FileObs.size n ∧
        obs (i + 1) = FileObs.size n ∧ obs (i + 2) = FileObs.size n := by
  intro fuel
  induction fuel with
  | zero =>
    intro a last sc _ _ htrue
    simp [waitForFileAux] at htrue
  | succ fuel ih =>
    intro a last sc hQ hP htrue
    rw [waitForFileAux] at htrue
    cases hobs : obs a with
    | size n =>
      simp only [hobs] at htrue
      by_cases hc : 0 < n ∧ (n : Int) = last
      · simp only [if_pos hc] at htrue
        by_cases hsc : 2 ≤ sc + 1
        · obtain ⟨m, hm0, hlast, ha2, h1, h2⟩ := hP (by omega)
          have hnm : n = m := by
            have hcast : (n : Int) = (m : Int) := hc.2.trans hlast
            exact_mod_cast hcast
          subst hnm
          refine ⟨a - 2, n, by omega, hm0, h2, ?_, ?_⟩
          · have e : a - 2 + 1 = a - 1 := by omega
            rw [e]; exact h1
          · have e : a - 2 + 2 = a := by omega
            rw [e]; exact hobs
        · simp only [if_neg hsc] at htrue
          have hn0 : 0 < n := hc.1
          have hlastpos : 0 < last := by
            rw [← hc.2]; exact_mod_cast hn0
          obtain ⟨m, hlast, ha1, hprev⟩ := hQ hlastpos
          have hnm : n = m := by
            have hcast : (n : Int) = (m : Int) := hc.2.trans hlast
            exact_mod_cast hcast
          subst hnm
          have hres := ih (a + 1) (n : Int) (sc + 1) ?_ ?_ htrue
          · obtain ⟨i, k, hik, hk0, e0, e1, e2⟩ := hres
            exact ⟨i, k, by omega, hk0, e0, e1, e2⟩
          · intro _
            refine ⟨n, rfl, by omega, ?_⟩
            simpa using hobs
          · intro _
            refine ⟨n, hn0, rfl, by omega, ?_, ?_⟩
            · simpa using hobs
            · have e : a + 1 - 2 = a - 1 := by omega
              rw [e]; exact hprev
      · simp only [if_neg hc] at htrue
        rw [if_neg (by omega : ¬ (2 : Nat) ≤ 0)] at htrue
        have hres := ih (a + 1) (n : Int) 0 ?_ ?_ htrue
        · obtain ⟨i, k, hik, hk0, e0, e1, e2⟩ := hres
          exact ⟨i, k, by omega, hk0, e0, e1, e2⟩
        · intro hpos
          have hn0 : 0 < n := by exact_mod_cast hpos
          refine ⟨n, rfl, by omega, ?_⟩
          simpa using hobs
        · intro hsc
          exact absurd hsc (by omega)
    | absent =>
      simp only [hobs] at htrue
      have hres := ih (a + 1) (-1) 0 ?_ ?_ htrue
      · obtain ⟨i, k, hik, hk0, e0, e1, e2⟩ := hres
        exact ⟨i, k, by omega, hk0, e0, e1, e2⟩
      · intro hpos
        exact absurd hpos (by decide)
      · intro hsc
        exact absurd hsc (by omega)
    | statError =>
      simp only [hobs] at htrue
      have hres := ih (a + 1) (-1) 0 ?_ ?_ htrue
      · obtain ⟨i, k, hik, hk0, e0, e1, e2⟩ := hres
        exact ⟨i, k, by omega, hk0, e0, e1, e2⟩
      · intro hpos
        exact absurd hpos (by decide)
      · intro hsc
        exact absurd hsc (by omega)

theorem waitForFileAux_true_complete (obs : Nat → FileObs) :
    ∀ (fuel a : Nat) (last : Int) (sc : Nat) (i n : Nat),
      0 < n → obs i = FileObs.size n → obs (i + 1) = FileObs.size n →
      obs (i + 2) = FileObs.size n → i + 2 < a + fuel →
      (a ≤ i ∨ (a = i + 1 ∧ last = (n : Int)) ∨
        (a = i + 2 ∧ last = (n : Int) ∧ 1 ≤ sc)) →
      (waitForFileAux obs fuel a last sc).1 = true := by
  intro fuel
  induction fuel with
  | zero =>
    intro a last sc i n _ _ _ _ hbound hdisj
    rcases hdisj with h | ⟨h, _⟩ | ⟨h, _, _⟩ <;> omega
  | succ fuel ih =>
    intro a last sc i n hn h0 h1 h2 hbound hdisj
    rw [waitForFileAux]
    rcases hdisj with hle | ⟨ha, hlast⟩ | ⟨ha, hlast, hsc⟩
    · by_cases hai : a = i
      · subst hai
        simp only [h0]
        by_cases h2le : 2 ≤ (if 0 < n ∧ (n : Int) = last then sc + 1 else 0)
        · simp [h2le]
        · simp only [if_neg h2le]
          exact ih (a + 1) (n : Int) _ a n hn h0 h1 h2 (by omega)
            (Or.inr (Or.inl ⟨rfl, rfl⟩))
      · cases hobs : obs a with
        | size m =>
          simp only [hobs]
          by_cases h2le : 2 ≤ (if 0 < m ∧ (m : Int) = last then sc + 1 else 0)
          · simp [h2le]
          · simp only [if_neg h2le]
            exact ih (a + 1) (m : Int) _ i n hn h0 h1 h2 (by omega)
              (Or.inl (by omega))
        | absent =>
          simp only [hobs]
          exact ih (a + 1) (-1) 0 i n hn h0 h1 h2 (by omega) (Or.inl (by omega))
        | statError =>
          simp only [hobs]
          exact ih (a + 1) (-1) 0 i n hn h0 h1 h2 (by omega) (Or.inl (by omega))
    · subst ha
      simp only [h1]
      have hcond : 0 < n ∧ (n : Int) = last := ⟨hn, hlast.symm⟩
      simp only [if_pos hcond]
      by_cases h2le : 2 ≤ sc + 1
      · simp [h2le]
      · simp only [if_neg h2le]
        exact ih (i + 1 + 1) (n : Int) (sc + 1) i n hn h0 h1 h2 (by omega)
          (Or.inr (Or.inr ⟨by omega, rfl, by omega⟩))
    · subst ha
      simp only [h2]
      have hcond : 0 < n ∧ (n : Int) = last := ⟨hn, hlast.symm⟩
      simp only [if_pos hcond]
      have h2le : 2 ≤ sc + 1 := by omega
      simp [h2le]

/-- The claim of C3 fails on the code: `requiredStableChecks = 2` demands two
consecutive increments of `stableChecks`, i.e. the same positive size on
three consecutive observations.  Here the file is observed at size 5 on two
consecutive polls (observations 0 and 1, within a 3-poll window) and then
grows, yet the watcher returns false. -/
theorem c3_counterexample :
    obsTwoStable 0 = FileObs.size 5 ∧ obsTwoStable 1 = FileObs.size 5 ∧
    (0 : Nat) + 1 < 3 ∧ (waitForFile obsTwoStable 3).1 = false := by
  decide

/-- C3, amended: `waitForFile` returns true if and only if, within the
`maxAttempts` polling window, some positive size is observed unchanged on
three consecutive observations (two consecutive stable comparisons), the
third of which still falls inside the window; two consecutive equal positive
observations alone are not sufficient. -/
theorem c3_amended (obs : Nat → FileObs) (maxAttempts : Nat) :
    (waitForFile obs maxAttempts).1 = true ↔
      ∃ i n, i + 2 < maxAttempts ∧ 0 < n ∧ obs i = FileObs.size n ∧
        obs (i + 1) = FileObs.size n ∧ obs (i + 2) = FileObs.size n := by
  constructor
  · intro h
    have hres := waitForFileAux_true_sound obs maxAttempts 0 (-1) 0 ?_ ?_ h
    · simpa using hres
    · intro hpos; exact absurd hpos (by decide)
    · intro hsc; exact absurd hsc (by omega)
  · rintro ⟨i, n, hib, hn, h0, h1, h2⟩
    exact waitForFileAux_true_complete obs maxAttempts 0 (-1) 0 i n hn h0 h1 h2
      (by omega) (Or.inl (by omega))

/-- Witness for `c3_amended` at a concrete input: a file of constant size 5
observed over a 4-poll window is declared ready. -/
theorem c3_witness : (waitForFile obsConstFive 4).1 = true :=
  (c3_amended obsConstFive 4).mpr ⟨0, 5, by omega, by omega, rfl, rfl, rfl⟩

theorem correctOne_length (d : SongDetail) (l : List Song) :
    (correctOne d l).length = l.length := by
  induction l with
  | nil => rfl
  | cons s rest ih =>
    by_cases h : s.id == d.id
    · simp [correctOne, h]
    · simp [correctOne, h, ih]

theorem foldl_correctOne_length (details : List SongDetail) (l : List Song) :
    (details.foldl (fun acc d => correctOne d acc) l).length = l.length := by
  induction details generalizing l with
  | nil => rfl
  | cons d rest ih =>
    simp only [List.foldl_cons]
    rw [ih, correctOne_length]

theorem assignCovers_length (details : List SongDetail) (l : List Song) :
    (assignCovers details l).length = l.length :=
  List.length_map _ _

theorem pickSongSearch_some_snd (maxList gid : Nat) (cloud : List Song) (kw : String)
    (remote : List Song) (details : List SongDetail) (store : List MusicDate) :
    (pickSongSearch maxList gid cloud kw (some remote) details store).2 =
      Reply.listImage (assignCovers details (details.foldl (fun acc d => correctOne d acc)
        (((cloud.filter (songMatches kw)).take
            (min (cloud.filter (songMatches kw)).length maxList)).map stripToEntry
          ++ remote))) := by
  simp [pickSongSearch]

/-- C8, confirmed: for a keyword search with at least one personal-library
match and at least one catalog match — assuming the catalog honours the
requested `limit = maxList - songListCount`, which is exactly what the code
asks for at line 409 — the merged, corrected list that is stored and rendered
has length at most the configured max-list size, and (by track id) all
personal-library matches form the prefix of the list, every one of them
preceding every catalog match. -/
theorem c8_theorem (maxList gid : Nat) (cloud remote : List Song) (kw : String)
    (details : List SongDetail) (store : List MusicDate)
    (hcloud : cloud.filter (songMatches kw) ≠ [])
    (hremote : remote ≠ [])
    (hlimit : remote.length ≤
      maxList - min (cloud.filter (songMatches kw)).length maxList) :
    ∃ l, (pickSongSearch maxList gid cloud kw (some remote) details store).2 =
        Reply.listImage l ∧
      l.length ≤ maxList ∧
      l.map Song.id =
        ((cloud.filter (songMatches kw)).take
            (min (cloud.filter (songMatches kw)).length maxList)).map Song.id
          ++ remote.map Song.id := by
  refine ⟨_, pickSongSearch_some_snd maxList gid cloud kw remote details store, ?_, ?_⟩
  · rw [assignCovers_length, foldl_correctOne_length, List.length_append,
      List.length_map, List.length_take]
    omega
  · rw [assignCovers_map_id, foldl_correctOne_map_id, List.map_append,
      map_stripToEntry_map_id]

/-- Witness for `c8_theorem` at a concrete input: one matching cloud track,
one catalog track, max-list size 5. -/
theorem c8_witness :
    ∃ l, (pickSongSearch 5 1 cloudSample "a" (some remoteSample) [] []).2 =
        Reply.listImage l ∧
      l.length ≤ 5 ∧
      l.map Song.id =
        ((cloudSample.filter (songMatches "a")).take
            (min (cloudSample.filter (songMatches "a")).length 5)).map Song.id
          ++ remoteSample.map Song.id :=
  c8_theorem 5 1 cloudSample remoteSample "a" [] [] (by decide) (by decide) (by decide)
